import Mathlib

/-!
Shallow embedding of the AnonymousFoodSafety contract of this repository.
The contract sources are not present in the repository snapshot (only its
hardhat tests, deployment/interaction scripts and documentation are), so the
operations below are modelled from the specification (spec.md §3–§4), using
the public names that the tests exercise (submitAnonymousReport,
updateReportStatus, batchUpdateStatus, emergencyCloseReport,
startInvestigation, completeInvestigation, getReportInfo,
getInvestigationInfo, getTotalStats, getLocationStats, getReporterStats).

Per spec §5 every state-modifying operation is a single atomic unit: it
either applies all of its changes or none.  The embedding realises this with
`Except`: a failing operation returns an error and no state, so the caller
keeps the unchanged pre-state.
-/

namespace FoodSafety

/-- Modelled from the spec: an identity is an "opaque caller handle" (§3). -/
abbrev Addr := Nat

/-- Modelled from the spec: report lifecycle states (§4.2), in the contract
encoded 0..4 as Submitted/UnderReview/Investigating/Resolved/Closed. -/
inductive Status
  | Submitted
  | UnderReview
  | Investigating
  | Resolved
  | Closed
  deriving DecidableEq, Repr

/-- Position of a status along the lifecycle graph
Submitted → UnderReview → Investigating → Resolved, with Closed on top
(reachable from anywhere via the emergency path).  "Moves forward" means
this rank does not decrease. -/
def Status.rank : Status → Nat
  | .Submitted => 0
  | .UnderReview => 1
  | .Investigating => 2
  | .Resolved => 3
  | .Closed => 4

/-- Modelled from the spec: a Report record (§3). -/
structure Report where
  submitter : Addr
  safetyLevel : Nat
  locationCode : Nat
  foodTypeCode : Nat
  description : String
  status : Status
  createdAt : Nat
  lastUpdated : Nat
  isProcessed : Bool
  isValid : Bool
  deriving DecidableEq, Repr

/-- Modelled from the spec: an Investigation record (§3). -/
structure Investigation where
  investigator : Addr
  startTime : Nat
  endTime : Nat
  isComplete : Bool
  finalSafetyLevel : Nat
  findings : String
  deriving DecidableEq, Repr

/-- Modelled from the spec: per-location running statistics (§3). -/
structure LocationStats where
  totalReports : Nat
  resolvedReports : Nat
  runningSafetyLevelSum : Nat
  lastReportTime : Nat
  deriving DecidableEq, Repr

/-- Modelled from the spec: global counts by status bucket (§3, §4.4). -/
structure TotalStats where
  total : Nat
  submitted : Nat
  underReview : Nat
  investigating : Nat
  resolved : Nat
  closed : Nat
  deriving DecidableEq, Repr

/-- Modelled from the spec: the append-only notifications of §6. -/
inductive Event
  | ReportSubmitted (id : Nat) (caller : Addr) (ts : Nat)
  | ReportStatusChanged (id : Nat) (newStatus : Status)
  | InvestigatorAuthorized (who : Addr)
  | InvestigatorRevoked (who : Addr)
  | InvestigationStarted (id : Nat) (investigator : Addr)
  | InvestigationCompleted (id : Nat) (finalLevel : Nat)
  deriving DecidableEq, Repr

/-- Modelled from the spec: the whole contract store (§9 design note: one
explicit store value threaded through every operation).  Report ids are
dense starting at 1; the report with id `i` sits at list index `i - 1`. -/
structure FSState where
  owner : Addr
  regulator : Addr
  authorizedInvestigators : Addr → Bool
  reports : List Report
  investigations : Nat → Option Investigation
  totalStats : TotalStats
  locationStats : Nat → LocationStats
  reporterStats : Addr → Nat
  events : List Event

/-- Modelled from the spec: error taxonomy of §7. -/
inductive FSError
  | AuthorizationError
  | ValidationError
  | StateError
  deriving DecidableEq, Repr

/-- Modelled from the spec: contract construction — owner is the deployer,
regulator defaults to owner, everything else empty/zero (§3 AccessState,
deployment tests). -/
def initState (deployer : Addr) : FSState where
  owner := deployer
  regulator := deployer
  authorizedInvestigators := fun _ => false
  reports := []
  investigations := fun _ => none
  totalStats := ⟨0, 0, 0, 0, 0, 0⟩
  locationStats := fun _ => ⟨0, 0, 0, 0⟩
  reporterStats := fun _ => 0
  events := []

/-- Lookup of a report by id: id 0 and ids past the counter are unknown. -/
def findReport (s : FSState) (id : Nat) : Option Report :=
  if id = 0 then none else s.reports[id - 1]?

/-- The contract's public `totalReports` counter: number of reports ever
created (ids are dense from 1, reports are never deleted). -/
def totalReports (s : FSState) : Nat := s.reports.length

/-- The status bucket of `TotalStats` belonging to a status. -/
def bucket (t : TotalStats) : Status → Nat
  | .Submitted => t.submitted
  | .UnderReview => t.underReview
  | .Investigating => t.investigating
  | .Resolved => t.resolved
  | .Closed => t.closed

/-- Increment one status bucket. -/
def incBucket (t : TotalStats) : Status → TotalStats
  | .Submitted => { t with submitted := t.submitted + 1 }
  | .UnderReview => { t with underReview := t.underReview + 1 }
  | .Investigating => { t with investigating := t.investigating + 1 }
  | .Resolved => { t with resolved := t.resolved + 1 }
  | .Closed => { t with closed := t.closed + 1 }

/-- Decrement one status bucket. -/
def decBucket (t : TotalStats) : Status → TotalStats
  | .Submitted => { t with submitted := t.submitted - 1 }
  | .UnderReview => { t with underReview := t.underReview - 1 }
  | .Investigating => { t with investigating := t.investigating - 1 }
  | .Resolved => { t with resolved := t.resolved - 1 }
  | .Closed => { t with closed := t.closed - 1 }

/-- Move a report between status buckets: decrement the old bucket,
increment the new one (§4.2 updateStatus). -/
def moveBucket (t : TotalStats) (oldSt newSt : Status) : TotalStats :=
  incBucket (decBucket t oldSt) newSt

/-- Modelled from the spec: `submitReport` (§4.2), named
`submitAnonymousReport` in the contract's public interface.  Any caller;
rejects safetyLevel > 4 with ValidationError; otherwise assigns the next
dense id, stores the record as Submitted, bumps TotalStats, LocationStats
and ReporterStats, and emits ReportSubmitted. -/
def submitAnonymousReport (caller : Addr) (now : Nat)
    (safetyLevel locationCode foodTypeCode : Nat) (description : String)
    (s : FSState) : Except FSError (FSState × Nat) :=
  if safetyLevel > 4 then .error .ValidationError
  else
    let id := s.reports.length + 1
    let r : Report :=
      { submitter := caller, safetyLevel := safetyLevel,
        locationCode := locationCode, foodTypeCode := foodTypeCode,
        description := description, status := .Submitted,
        createdAt := now, lastUpdated := now,
        isProcessed := false, isValid := true }
    let ls := s.locationStats locationCode
    .ok ({ s with
      reports := s.reports ++ [r]
      totalStats :=
        incBucket { s.totalStats with total := s.totalStats.total + 1 } .Submitted
      locationStats := fun L =>
        if L = locationCode then
          { ls with totalReports := ls.totalReports + 1,
                    runningSafetyLevelSum := ls.runningSafetyLevelSum + safetyLevel,
                    lastReportTime := now }
        else s.locationStats L
      reporterStats := fun a =>
        if a = caller then s.reporterStats a + 1 else s.reporterStats a
      events := s.events ++ [.ReportSubmitted id caller now] }, id)

/-- Modelled from the spec: `setRegulator` (§4.1) — owner only. -/
def setRegulator (caller : Addr) (newRegulator : Addr) (s : FSState) :
    Except FSError FSState :=
  if caller ≠ s.owner then .error .AuthorizationError
  else .ok { s with regulator := newRegulator }

/-- Modelled from the spec: `authorizeInvestigator` (§4.1) — regulator only;
idempotent; emits a membership-changed notification. -/
def authorizeInvestigator (caller who : Addr) (s : FSState) :
    Except FSError FSState :=
  if caller ≠ s.regulator then .error .AuthorizationError
  else .ok { s with
    authorizedInvestigators := fun a =>
      if a = who then true else s.authorizedInvestigators a
    events := s.events ++ [.InvestigatorAuthorized who] }

/-- Modelled from the spec: `revokeInvestigator` (§4.1) — regulator only. -/
def revokeInvestigator (caller who : Addr) (s : FSState) :
    Except FSError FSState :=
  if caller ≠ s.regulator then .error .AuthorizationError
  else .ok { s with
    authorizedInvestigators := fun a =>
      if a = who then false else s.authorizedInvestigators a
    events := s.events ++ [.InvestigatorRevoked who] }

/-- Modelled from the spec: `updateStatus` (§4.2), named
`updateReportStatus` in the contract's public interface.  Regulator only
(checked first, as a modifier); ValidationError on an unknown id; sets the
new status without enforcing the forward-only graph (§4.2 explicitly:
"it does not enforce the forward-only graph itself"); moves the TotalStats
bucket and emits ReportStatusChanged. -/
def updateReportStatus (caller : Addr) (now : Nat) (id : Nat)
    (newStatus : Status) (s : FSState) : Except FSError FSState :=
  if caller ≠ s.regulator then .error .AuthorizationError
  else
    match findReport s id with
    | none => .error .ValidationError
    | some r => .ok { s with
        reports := s.reports.set (id - 1)
          { r with status := newStatus, lastUpdated := now }
        totalStats := moveBucket s.totalStats r.status newStatus
        events := s.events ++ [.ReportStatusChanged id newStatus] }

/-- One pass of a batch update: apply `updateReportStatus` to each listed id
in order, aborting the whole batch on the first failure (§5: the list is one
atomic unit). -/
def batchGo (caller : Addr) (now : Nat) (newStatus : Status) :
    List Nat → FSState → Except FSError FSState
  | [], s => .ok s
  | id :: rest, s =>
    match updateReportStatus caller now id newStatus s with
    | .error e => .error e
    | .ok s1 => batchGo caller now newStatus rest s1

/-- Modelled from the spec: `batchUpdateStatus` (§4.2) — regulator only;
applies `updateStatus` semantics to every id as one atomic unit; the empty
sequence is a no-op that still succeeds. -/
def batchUpdateStatus (caller : Addr) (now : Nat) (ids : List Nat)
    (newStatus : Status) (s : FSState) : Except FSError FSState :=
  if caller ≠ s.regulator then .error .AuthorizationError
  else batchGo caller now newStatus ids s

/-- Modelled from the spec: `emergencyClose` (§4.2), named
`emergencyCloseReport` in the contract's public interface.  Owner only;
unconditionally forces status=Closed, isValid=false, lastUpdated=now,
regardless of the current state, even if already Closed; adjusts the
TotalStats buckets; emits ReportStatusChanged(id, Closed).  The free-text
reason goes to the audit log only and is not part of the stored state. -/
def emergencyCloseReport (caller : Addr) (now : Nat) (id : Nat)
    (reason : String) (s : FSState) : Except FSError FSState :=
  if caller ≠ s.owner then .error .AuthorizationError
  else
    match findReport s id with
    | none => .error .ValidationError
    | some r => .ok { s with
        reports := s.reports.set (id - 1)
          { r with status := .Closed, isValid := false, lastUpdated := now }
        totalStats := moveBucket s.totalStats r.status .Closed
        events := s.events ++ [.ReportStatusChanged id .Closed] }

/-- Modelled from the spec: `startInvestigation` (§4.3).  Checks, in order:
ValidationError on an unknown report; StateError whenever the status is
Investigating, Resolved or Closed (per §8 this fires "regardless of caller
authorization", so it precedes the role check); AuthorizationError unless
the caller is an authorized investigator or the regulator.  On success it
creates the Investigation with investigator=caller and isComplete=false and
forces the report to Investigating, bypassing any prior UnderReview step. -/
def startInvestigation (caller : Addr) (now : Nat) (id : Nat) (s : FSState) :
    Except FSError FSState :=
  match findReport s id with
  | none => .error .ValidationError
  | some r =>
    if r.status = .Investigating ∨ r.status = .Resolved ∨ r.status = .Closed then
      .error .StateError
    else if s.authorizedInvestigators caller = true ∨ caller = s.regulator then
      .ok { s with
        investigations := fun j =>
          if j = id then
            some { investigator := caller, startTime := now, endTime := 0,
                   isComplete := false, finalSafetyLevel := 0, findings := "" }
          else s.investigations j
        reports := s.reports.set (id - 1)
          { r with status := .Investigating, lastUpdated := now }
        totalStats := moveBucket s.totalStats r.status .Investigating
        events := s.events ++ [.InvestigationStarted id caller] }
    else .error .AuthorizationError

/-- Modelled from the spec: `completeInvestigation` (§4.3).  Checks, in
order: ValidationError if no Investigation exists for the id; StateError
("Investigation already complete") if isComplete is already true;
AuthorizationError unless the caller is the assigned investigator or the
regulator.  On success it freezes the Investigation (isComplete=true,
finalSafetyLevel, findings, endTime=now) and forces the report to Resolved
with isProcessed=true, adjusting TotalStats and the per-location resolved
count. -/
def completeInvestigation (caller : Addr) (now : Nat) (id : Nat)
    (finalLevel : Nat) (findingsText : String) (s : FSState) :
    Except FSError FSState :=
  match s.investigations id with
  | none => .error .ValidationError
  | some inv =>
    if inv.isComplete then .error .StateError
    else if caller = inv.investigator ∨ caller = s.regulator then
      match findReport s id with
      | none => .error .ValidationError
      | some r => .ok { s with
          investigations := fun j =>
            if j = id then
              some { inv with isComplete := true, endTime := now,
                              finalSafetyLevel := finalLevel, findings := findingsText }
            else s.investigations j
          reports := s.reports.set (id - 1)
            { r with status := .Resolved, isProcessed := true, lastUpdated := now }
          totalStats := moveBucket s.totalStats r.status .Resolved
          locationStats := fun L =>
            if L = r.locationCode then
              { s.locationStats L with
                resolvedReports := (s.locationStats L).resolvedReports + 1 }
            else s.locationStats L
          events := s.events ++ [.InvestigationCompleted id finalLevel] }
    else .error .AuthorizationError

/-- Modelled from the spec: `getReportInfo` (§4.2) — read-only; an unknown
id yields the defined empty-record sentinel (isValid=false, timestamps 0,
default status), not an error. -/
def getReportInfo (s : FSState) (id : Nat) : Report :=
  (findReport s id).getD
    { submitter := 0, safetyLevel := 0, locationCode := 0, foodTypeCode := 0,
      description := "", status := .Submitted, createdAt := 0, lastUpdated := 0,
      isProcessed := false, isValid := false }

/-- Modelled from the spec: `getInvestigationInfo` (§4.3) — read-only with
an empty sentinel for reports without an investigation. -/
def getInvestigationInfo (s : FSState) (id : Nat) : Investigation :=
  (s.investigations id).getD
    { investigator := 0, startTime := 0, endTime := 0, isComplete := false,
      finalSafetyLevel := 0, findings := "" }

/-- Modelled from the spec: `getTotalStats` (§4.4). -/
def getTotalStats (s : FSState) : TotalStats := s.totalStats

/-- Modelled from the spec: `getLocationStats` (§4.4); unseen codes return
the all-zero default. -/
def getLocationStats (s : FSState) (code : Nat) : LocationStats :=
  s.locationStats code

/-- Modelled from the spec: `getReporterStats` (§4.4). -/
def getReporterStats (s : FSState) (who : Addr) : Nat := s.reporterStats who


/-! ## Operation language and traces

To speak about "any sequence of operations" (reachability invariants), the
public mutating interface of §6 is packaged as one inductive operation type
with a single dispatcher. -/

/-- One invocation of a public mutating operation, together with its caller
and the block timestamp at which it runs. -/
inductive Op
  | submit (caller now safetyLevel locationCode foodTypeCode : Nat)
      (description : String)
  | setReg (caller newRegulator : Addr)
  | authorize (caller who : Addr)
  | revoke (caller who : Addr)
  | update (caller now id : Nat) (newStatus : Status)
  | batch (caller now : Nat) (ids : List Nat) (newStatus : Status)
  | emergency (caller now id : Nat) (reason : String)
  | start (caller now id : Nat)
  | complete (caller now id finalLevel : Nat) (findingsText : String)
  deriving DecidableEq, Repr

/-- Dispatch an operation to its model function. -/
def applyOp : Op → FSState → Except FSError FSState
  | .submit caller now lvl loc food desc, s =>
    (submitAnonymousReport caller now lvl loc food desc s).map Prod.fst
  | .setReg caller newReg, s => setRegulator caller newReg s
  | .authorize caller who, s => authorizeInvestigator caller who s
  | .revoke caller who, s => revokeInvestigator caller who s
  | .update caller now id st, s => updateReportStatus caller now id st s
  | .batch caller now ids st, s => batchUpdateStatus caller now ids st s
  | .emergency caller now id reason, s => emergencyCloseReport caller now id reason s
  | .start caller now id, s => startInvestigation caller now id s
  | .complete caller now id lvl f, s => completeInvestigation caller now id lvl f s

/-- Run a list of operations from a state, aborting at the first failure. -/
def runOps (ops : List Op) (s : FSState) : Except FSError FSState :=
  ops.foldl (fun acc op => acc.bind (applyOp op)) (.ok s)

/-- Extract the state of a successful run, falling back to a default. -/
def okOr (e : Except FSError FSState) (d : FSState) : FSState :=
  match e with
  | .ok s => s
  | .error _ => d

/-- Whether a run succeeded. -/
def isOkE : Except FSError FSState → Bool
  | .ok _ => true
  | .error _ => false

/-- The states reachable from a fresh deployment by successful public
operations. -/
inductive Reachable (deployer : Addr) : FSState → Prop
  | init : Reachable deployer (initState deployer)
  | step {s s' : FSState} (op : Op) :
      Reachable deployer s → applyOp op s = .ok s' → Reachable deployer s'

/-- Number of stored reports having a given status. -/
def countStatus (s : FSState) (st : Status) : Nat :=
  s.reports.countP (fun r => r.status = st)

/-- Number of stored reports submitted for a given location code. -/
def countLoc (s : FSState) (L : Nat) : Nat :=
  s.reports.countP (fun r => r.locationCode = L)


/-! ## Claim theorems -/

/-- Claim C1: for every caller and every safetyLevel in [0,4],
`submitAnonymousReport` succeeds and `totalReports` increases by exactly 1;
for safetyLevel = 5 it fails with ValidationError, and — failure returning
no state — totalReports, the TotalStats buckets, LocationStats and
ReporterStats are all unchanged. -/
theorem submit_safetyLevel_boundary (s : FSState) (caller now lvl loc food : Nat)
    (desc : String) :
    (lvl ≤ 4 →
      (submitAnonymousReport caller now lvl loc food desc s).map
        (fun p => totalReports p.1) = .ok (totalReports s + 1)) ∧
    (lvl = 5 →
      submitAnonymousReport caller now lvl loc food desc s
        = .error .ValidationError) := by
  constructor
  · intro h
    have h4 : ¬ lvl > 4 := by omega
    simp [submitAnonymousReport, h4, totalReports, Except.map]
  · intro h
    subst h
    simp [submitAnonymousReport]

/-- Witness for C1 at concrete inputs: one call at level 2 on a fresh
deployment succeeds with totalReports 1, one call at level 5 is rejected. -/
theorem submit_safetyLevel_boundary_witness :
    (submitAnonymousReport 1 1 2 3 4 "w" (initState 0)).map
      (fun p => totalReports p.1) = .ok 1 ∧
    submitAnonymousReport 1 1 5 3 4 "w" (initState 0) = .error .ValidationError :=
  ⟨by simpa [totalReports, initState] using
      (submit_safetyLevel_boundary (initState 0) 1 1 2 3 4 "w").1 (by decide),
   (submit_safetyLevel_boundary (initState 0) 1 1 5 3 4 "w").2 rfl⟩

/-- Claim C3: every caller that is not the regulator is rejected with
AuthorizationError by updateReportStatus, batchUpdateStatus,
authorizeInvestigator and revokeInvestigator; every caller that is not the
owner is rejected with AuthorizationError by setRegulator and
emergencyCloseReport.  A rejected operation returns no state, so all state
is unchanged. -/
theorem role_guards_reject (s : FSState) (caller : Addr) (now id : Nat)
    (ids : List Nat) (st : Status) (who newReg : Addr) (reason : String) :
    (caller ≠ s.regulator →
      updateReportStatus caller now id st s = .error .AuthorizationError ∧
      batchUpdateStatus caller now ids st s = .error .AuthorizationError ∧
      authorizeInvestigator caller who s = .error .AuthorizationError ∧
      revokeInvestigator caller who s = .error .AuthorizationError) ∧
    (caller ≠ s.owner →
      setRegulator caller newReg s = .error .AuthorizationError ∧
      emergencyCloseReport caller now id reason s = .error .AuthorizationError) := by
  constructor
  · intro h
    refine ⟨?_, ?_, ?_, ?_⟩ <;>
      simp [updateReportStatus, batchUpdateStatus, authorizeInvestigator,
        revokeInvestigator, h]
  · intro h
    exact ⟨by simp [setRegulator, h], by simp [emergencyCloseReport, h]⟩

/-- Witness for C3: on a fresh deployment (owner = regulator = 0), caller 1
is rejected by a regulator-only and an owner-only operation. -/
theorem role_guards_reject_witness :
    updateReportStatus 1 0 1 .UnderReview (initState 0)
      = .error .AuthorizationError ∧
    setRegulator 1 2 (initState 0) = .error .AuthorizationError :=
  ⟨((role_guards_reject (initState 0) 1 0 1 [] .UnderReview 2 2 "x").1
      (by decide)).1,
   ((role_guards_reject (initState 0) 1 0 1 [] .UnderReview 2 2 "x").2
      (by decide)).1⟩

/-- Claim C10: `submitAnonymousReport` validates only the safety level — for
every locationCode and foodTypeCode in the full 32-bit unsigned range and
every description string (empty or arbitrarily long), a submission with
safetyLevel in [0,4] succeeds and emits ReportSubmitted. -/
theorem submit_validates_only_level (s : FSState) (caller now lvl loc food : Nat)
    (desc : String) (hl : lvl ≤ 4) (hloc : loc < 2 ^ 32) (hfood : food < 2 ^ 32) :
    (submitAnonymousReport caller now lvl loc food desc s).map (fun p => p.1.events)
      = .ok (s.events ++ [Event.ReportSubmitted (totalReports s + 1) caller now]) := by
  have h4 : ¬ lvl > 4 := by omega
  simp [submitAnonymousReport, h4, totalReports, Except.map]

set_option maxRecDepth 4096 in
/-- Witness for C10 at extreme concrete inputs: both codes at 2^32 - 1, a
1000-character description, safety level 0. -/
theorem submit_validates_only_level_witness :
    (submitAnonymousReport 9 7 0 4294967295 4294967295
        (String.mk (List.replicate 1000 'A')) (initState 0)).map
        (fun p => p.1.events)
      = .ok [Event.ReportSubmitted 1 9 7] := by
  simpa [totalReports, initState] using
    submit_validates_only_level (initState 0) 9 7 0 4294967295 4294967295
      (String.mk (List.replicate 1000 'A')) (by decide) (by norm_num) (by norm_num)


/-! ### Helper lemmas -/

theorem findReport_pos {s : FSState} {id : Nat} {r : Report}
    (h : findReport s id = some r) : id ≠ 0 ∧ id - 1 < s.reports.length := by
  unfold findReport at h
  by_cases h0 : id = 0
  · simp [h0] at h
  · simp only [h0, if_false] at h
    exact ⟨h0, (List.getElem?_eq_some_iff.mp h).1⟩

theorem moveBucket_total (t : TotalStats) (a b : Status) :
    (moveBucket t a b).total = t.total := by
  cases a <;> cases b <;> simp [moveBucket, incBucket, decBucket]

theorem moveBucket_closed_of_ne (t : TotalStats) {a : Status}
    (h : a ≠ .Closed) :
    (moveBucket t a .Closed).closed = t.closed + 1 := by
  cases a <;> simp [moveBucket, incBucket, decBucket] at h ⊢

/-! ### Sample states for witnesses -/

/-- A fresh deployment by identity 0, after the regulator authorized
investigator 6 and identity 5 submitted one report at location 1001. -/
def sampleState : FSState :=
  okOr (runOps [Op.authorize 0 6, Op.submit 5 1 2 1001 5001 "issue"]
    (initState 0)) (initState 0)

/-- `sampleState` after investigator 6 started investigating report 1. -/
def sampleState2 : FSState :=
  okOr (runOps [Op.start 6 2 1] sampleState) sampleState

/-- Claim C5: `startInvestigation` fails with ValidationError on an unknown
id; fails with StateError whenever the report is Investigating, Resolved or
Closed (before any authorization check, so even an unauthorized caller sees
StateError there); and otherwise, for an authorized investigator or the
regulator, creates an Investigation with investigator = caller and
isComplete = false and forces the report's status to Investigating, even
without a prior UnderReview update. -/
theorem startInvestigation_spec (s : FSState) (caller now id : Nat) :
    (findReport s id = none →
      startInvestigation caller now id s = .error .ValidationError) ∧
    (∀ r, findReport s id = some r →
      (r.status = .Investigating ∨ r.status = .Resolved ∨ r.status = .Closed) →
      startInvestigation caller now id s = .error .StateError) ∧
    (∀ r, findReport s id = some r →
      (r.status = .Submitted ∨ r.status = .UnderReview) →
      (s.authorizedInvestigators caller = true ∨ caller = s.regulator) →
      (startInvestigation caller now id s).map (fun s1 =>
          ((getInvestigationInfo s1 id).investigator,
           (getInvestigationInfo s1 id).isComplete,
           (getReportInfo s1 id).status))
        = .ok (caller, false, .Investigating)) := by
  refine ⟨?_, ?_, ?_⟩
  · intro h
    simp [startInvestigation, h]
  · intro r hr hst
    simp [startInvestigation, hr, eq_true hst]
  · intro r hr hst hauth
    obtain ⟨h0, hlt⟩ := findReport_pos hr
    have hnot : ¬ (r.status = .Investigating ∨ r.status = .Resolved ∨
        r.status = .Closed) := by
      rcases hst with h | h <;> simp [h]
    simp only [startInvestigation, hr]
    rw [if_neg hnot, if_pos hauth]
    simp [Except.map, getInvestigationInfo, getReportInfo, findReport, h0,
      List.getElem?_set_eq, hlt]

/-- Witness for C5: on `sampleState` (report 1 Submitted, investigator 6
authorized), investigator 6 starting investigation 1 succeeds, records
itself as the investigator with isComplete = false, and the report becomes
Investigating. -/
theorem startInvestigation_spec_witness :
    (startInvestigation 6 2 1 sampleState).map (fun s1 =>
        ((getInvestigationInfo s1 1).investigator,
         (getInvestigationInfo s1 1).isComplete,
         (getReportInfo s1 1).status))
      = .ok (6, false, .Investigating) :=
  (startInvestigation_spec sampleState 6 2 1).2.2
    (getReportInfo sampleState 1) (by decide) (by decide) (by decide)

/-- Claim C6: for a report with a started (incomplete) investigation, the
first successful `completeInvestigation` sets isComplete = true, records
finalSafetyLevel and findings, and forces the report to Resolved with
isProcessed = true; any second `completeInvestigation` on the same report —
by any caller, with any arguments — fails with StateError, and since a
failing operation returns no state, the findings and finalSafetyLevel
recorded by the first call remain unchanged. -/
theorem completeInvestigation_once (s : FSState) (caller now id lvl : Nat)
    (ftext : String) (inv : Investigation) (r : Report)
    (hinv : s.investigations id = some inv) (hnc : inv.isComplete = false)
    (hcall : caller = inv.investigator ∨ caller = s.regulator)
    (hrep : findReport s id = some r) :
    ((completeInvestigation caller now id lvl ftext s).map (fun s1 =>
        ((getInvestigationInfo s1 id).isComplete,
         (getInvestigationInfo s1 id).finalSafetyLevel,
         (getInvestigationInfo s1 id).findings,
         (getReportInfo s1 id).status,
         (getReportInfo s1 id).isProcessed))
      = .ok (true, lvl, ftext, Status.Resolved, true)) ∧
    (∀ caller2 now2 lvl2 ftext2,
      (completeInvestigation caller now id lvl ftext s).bind
          (completeInvestigation caller2 now2 id lvl2 ftext2)
        = .error .StateError) := by
  obtain ⟨h0, hlt⟩ := findReport_pos hrep
  constructor
  · simp [completeInvestigation, hinv, hnc, eq_true hcall, hrep, Except.map,
      getInvestigationInfo, getReportInfo, findReport, h0,
      List.getElem?_set_eq, hlt]
  · intro caller2 now2 lvl2 ftext2
    simp [completeInvestigation, hinv, hnc, eq_true hcall, hrep, Except.bind]

/-- Witness for C6: on `sampleState2` (investigation of report 1 started by
investigator 6), the first completion by 6 records level 3 and the findings
text and resolves the report; a repeated completion attempt — here by a
different caller with different arguments — fails with StateError. -/
theorem completeInvestigation_once_witness :
    ((completeInvestigation 6 4 1 3 "fixed" sampleState2).map (fun s1 =>
        ((getInvestigationInfo s1 1).isComplete,
         (getInvestigationInfo s1 1).finalSafetyLevel,
         (getInvestigationInfo s1 1).findings,
         (getReportInfo s1 1).status,
         (getReportInfo s1 1).isProcessed))
      = .ok (true, 3, "fixed", Status.Resolved, true)) ∧
    ((completeInvestigation 6 4 1 3 "fixed" sampleState2).bind
        (completeInvestigation 0 9 1 4 "again")
      = .error .StateError) := by
  have h := completeInvestigation_once sampleState2 6 4 1 3 "fixed"
    (getInvestigationInfo sampleState2 1) (getReportInfo sampleState2 1)
    (by decide) (by decide) (by decide) (by decide)
  exact ⟨h.1, h.2 0 9 4 "again"⟩

/-- Claim C8: for every existing report in any lifecycle state (including
one that is already Closed), `emergencyCloseReport` called by the owner
succeeds, after which the report has status Closed, isValid = false and
lastUpdated = now, the TotalStats total is unchanged and — when the report
was not already Closed — the closed bucket grows by one. -/
theorem emergencyClose_forces_closed (s : FSState) (now id : Nat)
    (reason : String) (r : Report) (hrep : findReport s id = some r) :
    ((emergencyCloseReport s.owner now id reason s).map (fun s1 =>
        ((getReportInfo s1 id).status, (getReportInfo s1 id).isValid,
         (getReportInfo s1 id).lastUpdated, (getTotalStats s1).total))
      = .ok (Status.Closed, false, now, (getTotalStats s).total)) ∧
    (r.status ≠ .Closed →
      (emergencyCloseReport s.owner now id reason s).map
          (fun s1 => (getTotalStats s1).closed)
        = .ok ((getTotalStats s).closed + 1)) := by
  obtain ⟨h0, hlt⟩ := findReport_pos hrep
  constructor
  · simp [emergencyCloseReport, hrep, Except.map, getReportInfo, findReport,
      h0, List.getElem?_set_eq, hlt, getTotalStats, moveBucket_total]
  · intro hne
    simp [emergencyCloseReport, hrep, Except.map, getTotalStats,
      moveBucket_closed_of_ne _ hne]

/-- Witness for C8: the owner emergency-closes the single (Submitted) report
of `sampleState`; it becomes Closed and invalid with the new timestamp, the
total stays 1 and the closed bucket becomes 1. -/
theorem emergencyClose_forces_closed_witness :
    ((emergencyCloseReport 0 5 1 "spam" sampleState).map (fun s1 =>
        ((getReportInfo s1 1).status, (getReportInfo s1 1).isValid,
         (getReportInfo s1 1).lastUpdated, (getTotalStats s1).total))
      = .ok (Status.Closed, false, 5, 1)) ∧
    (emergencyCloseReport 0 5 1 "spam" sampleState).map
        (fun s1 => (getTotalStats s1).closed) = .ok 1 := by
  have h := emergencyClose_forces_closed sampleState 5 1 "spam"
    (getReportInfo sampleState 1) (by decide)
  have h1 : (getTotalStats sampleState).total = 1 := by decide
  have h2 : (getTotalStats sampleState).closed = 0 := by decide
  have hw : sampleState.owner = 0 := by decide
  rw [hw] at h
  exact ⟨by rw [h.1, h1], by rw [h.2 (by decide), h2]⟩


/-! ### Effects of a single regulator status update -/

theorem getReportInfo_of_some {s : FSState} {id : Nat} {r : Report}
    (h : findReport s id = some r) : getReportInfo s id = r := by
  simp [getReportInfo, h]

theorem updateReportStatus_ok {caller : Addr} {now id : Nat} {st : Status}
    {s s1 : FSState} (h : updateReportStatus caller now id st s = .ok s1) :
    s1.regulator = s.regulator ∧ s1.reports.length = s.reports.length ∧
    s1.events = s.events ++ [Event.ReportStatusChanged id st] ∧
    (∃ r1, findReport s1 id = some r1 ∧ r1.status = st) ∧
    (∀ k, k ≠ id → findReport s1 k = findReport s k) := by
  unfold updateReportStatus at h
  split at h
  · simp at h
  · split at h
    · simp at h
    · rename_i r hr
      obtain ⟨h0, hlt⟩ := findReport_pos hr
      injection h with h
      subst h
      refine ⟨rfl, by simp, rfl,
        ⟨{ r with status := st, lastUpdated := now }, ?_, rfl⟩, ?_⟩
      · simp [findReport, h0, List.getElem?_set_eq, hlt]
      · intro k hk
        unfold findReport
        by_cases hk0 : k = 0
        · simp [hk0]
        · simp only [hk0, if_false]
          exact List.getElem?_set_ne (by omega)

theorem updateReportStatus_succeeds {caller : Addr} {s : FSState} {id : Nat}
    (hreg : caller = s.regulator) {r : Report} (hr : findReport s id = some r)
    (now : Nat) (st : Status) :
    ∃ s1, updateReportStatus caller now id st s = .ok s1 := by
  unfold updateReportStatus
  rw [if_neg (by simp [hreg]), hr]
  exact ⟨_, rfl⟩

theorem batchGo_spec (caller : Addr) (now : Nat) (st : Status) :
    ∀ (ids : List Nat) (s : FSState), caller = s.regulator →
    (∀ id ∈ ids, findReport s id ≠ none) →
    ∃ s1, batchGo caller now st ids s = .ok s1 ∧
      s1.regulator = s.regulator ∧
      (∀ id ∈ ids, (getReportInfo s1 id).status = st) ∧
      (∀ k, k ∉ ids → findReport s1 k = findReport s k) ∧
      s1.events = s.events ++ ids.map (fun id => Event.ReportStatusChanged id st)
  | [], s, _, _ => ⟨s, rfl, rfl, by simp, fun k _ => rfl, by simp⟩
  | id :: rest, s, hreg, hex => by
    obtain ⟨r, hr⟩ := Option.ne_none_iff_exists'.mp (hex id (by simp))
    obtain ⟨s1, h1⟩ := updateReportStatus_succeeds hreg hr now st
    obtain ⟨hreg1, _, hev1, ⟨r1, hr1, hr1st⟩, hframe1⟩ := updateReportStatus_ok h1
    obtain ⟨s2, h2, hreg2, hst2, hframe2, hev2⟩ :=
      batchGo_spec caller now st rest s1 (hreg.trans hreg1.symm)
        (by
          intro k hk
          by_cases hkid : k = id
          · subst hkid; simp [hr1]
          · rw [hframe1 k hkid]; exact hex k (by simp [hk]))
    refine ⟨s2, ?_, hreg2.trans hreg1, ?_, ?_, ?_⟩
    · simpa [batchGo, h1] using h2
    · intro k hk
      rcases List.mem_cons.mp hk with hkid | hkrest
      · subst hkid
        by_cases hkr : k ∈ rest
        · exact hst2 k hkr
        · rw [getReportInfo, hframe2 k hkr, hr1]
          exact hr1st
      · exact hst2 k hkrest
    · intro k hk
      have hk1 : k ≠ id := fun hc => hk (by simp [hc])
      have hk2 : k ∉ rest := fun hc => hk (by simp [hc])
      rw [hframe2 k hk2, hframe1 k hk1]
    · rw [hev2, hev1]
      simp

/-- Claim C7: `batchUpdateStatus` called by the regulator with an empty id
sequence succeeds and changes no state; called with a sequence of existing
ids it applies `updateStatus` semantics to every listed id as one atomic
unit — afterwards every listed report has the new status and one
ReportStatusChanged notification was appended per listed id. -/
theorem batchUpdate_atomic (s : FSState) (caller now : Nat) (ids : List Nat)
    (st : Status) (hreg : caller = s.regulator) :
    batchUpdateStatus caller now [] st s = .ok s ∧
    ((∀ id ∈ ids, findReport s id ≠ none) →
      ∃ s1, batchUpdateStatus caller now ids st s = .ok s1 ∧
        (∀ id ∈ ids, (getReportInfo s1 id).status = st) ∧
        s1.events = s.events ++ ids.map (fun id => Event.ReportStatusChanged id st)) := by
  constructor
  · unfold batchUpdateStatus
    rw [if_neg (by simp [hreg])]
    rfl
  · intro hex
    obtain ⟨s1, h1, _, hst, _, hev⟩ := batchGo_spec caller now st ids s hreg hex
    refine ⟨s1, ?_, hst, hev⟩
    unfold batchUpdateStatus
    rw [if_neg (by simp [hreg])]
    exact h1


/-- `sampleState` after a second report, submitted by identity 7 at
location 1002. -/
def sampleState3 : FSState :=
  okOr (runOps [Op.submit 7 3 1 1002 5002 "more"] sampleState) sampleState

/-- Witness for C7: on a state with two Submitted reports, the regulator's
empty batch returns the state unchanged, and the batch over [1, 2] moves
both reports to UnderReview and appends exactly one ReportStatusChanged
notification per id. -/
theorem batchUpdate_atomic_witness :
    batchUpdateStatus 0 3 [] .UnderReview sampleState3 = .ok sampleState3 ∧
    (batchUpdateStatus 0 3 [1, 2] .UnderReview sampleState3).map (fun s1 =>
        ((getReportInfo s1 1).status, (getReportInfo s1 2).status, s1.events))
      = .ok (.UnderReview, .UnderReview,
          [.InvestigatorAuthorized 6, .ReportSubmitted 1 5 1,
           .ReportSubmitted 2 7 3, .ReportStatusChanged 1 .UnderReview,
           .ReportStatusChanged 2 .UnderReview]) := by
  have hbase := batchUpdate_atomic sampleState3 0 3 [1, 2] .UnderReview (by decide)
  obtain ⟨s1, hok, hst, hev⟩ := hbase.2 (by decide)
  refine ⟨hbase.1, ?_⟩
  rw [hok]
  have he : s1.events = [Event.InvestigatorAuthorized 6,
      Event.ReportSubmitted 1 5 1, Event.ReportSubmitted 2 7 3,
      Event.ReportStatusChanged 1 .UnderReview,
      Event.ReportStatusChanged 2 .UnderReview] := by
    rw [hev]; decide
  simp [Except.map, hst 1 (by simp), hst 2 (by simp), he]


/-! ### Report-table frame lemmas -/

theorem findReport_append {s s1 : FSState} {l : List Report}
    (hrep : s1.reports = s.reports ++ l) {id : Nat} {r : Report}
    (hr : findReport s id = some r) : findReport s1 id = some r := by
  obtain ⟨h0, hlt⟩ := findReport_pos hr
  unfold findReport at hr ⊢
  simp only [h0, if_false] at hr ⊢
  rw [hrep, List.getElem?_append_left hlt]
  exact hr

theorem findReport_set {s s1 : FSState} {j : Nat} {rj b : Report}
    (hj : findReport s j = some rj) (hrep : s1.reports = s.reports.set (j - 1) b)
    (id : Nat) {r : Report} (hr : findReport s id = some r) :
    (id = j ∧ r = rj ∧ findReport s1 id = some b) ∨
    (id ≠ j ∧ findReport s1 id = some r) := by
  obtain ⟨hj0, hjlt⟩ := findReport_pos hj
  obtain ⟨h0, hlt⟩ := findReport_pos hr
  by_cases hij : id = j
  · subst hij
    have hrr : r = rj := by
      have hx := hr.symm.trans hj
      injection hx
    refine Or.inl ⟨rfl, hrr, ?_⟩
    unfold findReport
    simp only [h0, if_false]
    rw [hrep]
    exact List.getElem?_set_eq hjlt
  · refine Or.inr ⟨hij, ?_⟩
    unfold findReport at hr ⊢
    simp only [h0, if_false] at hr ⊢
    rw [hrep, List.getElem?_set_ne (by omega)]
    exact hr

theorem rank_le_four (st : Status) : Status.rank st ≤ 4 := by
  cases st <;> simp [Status.rank]

theorem rank_le_three_of_ne_closed {st : Status} (h : st ≠ .Closed) :
    Status.rank st ≤ 3 := by
  cases st <;> simp [Status.rank] at h ⊢

/-- The regulator's free-form manual update operations, which §4.2 says do
not themselves enforce the forward-only graph. -/
def Op.isManualUpdate : Op → Bool
  | .update _ _ _ _ => true
  | .batch _ _ _ _ => true
  | _ => false

/-- The report targeted by a completeInvestigation operation, if any. -/
def Op.completeTarget : Op → Option Nat
  | .complete _ _ id _ _ => some id
  | _ => none

/-- Counterexample to claim C2 as stated: the regulator submits nothing but
calls `updateReportStatus` freely — after moving report 1 from Submitted to
UnderReview, a further regulator call moves it back to Submitted, a
backward move along the graph, exactly as §4.2 warns ("it does not enforce
the forward-only graph itself"). -/
theorem status_graph_counterexample :
    isOkE (runOps [Op.submit 5 1 2 1001 5001 "r", Op.update 0 2 1 .UnderReview,
        Op.update 0 3 1 .Submitted] (initState 0)) = true ∧
    (getReportInfo (okOr (runOps [Op.submit 5 1 2 1001 5001 "r",
        Op.update 0 2 1 .UnderReview] (initState 0)) (initState 0)) 1).status
      = .UnderReview ∧
    (getReportInfo (okOr (runOps [Op.submit 5 1 2 1001 5001 "r",
        Op.update 0 2 1 .UnderReview, Op.update 0 3 1 .Submitted] (initState 0))
        (initState 0)) 1).status = .Submitted := by
  exact ⟨by decide, by decide, by decide⟩

/-- Claim C2, amended: `updateReportStatus`/`batchUpdateStatus` set an
arbitrary regulator-chosen status and do not enforce the graph (see the
counterexample).  Every other single operation never moves any report's
status backwards along Submitted → UnderReview → Investigating → Resolved →
(emergency) Closed, provided a completeInvestigation does not target a
report that was emergency-closed after its investigation started (there it
would move Closed back to Resolved). -/
theorem status_moves_forward (op : Op) (s s1 : FSState)
    (hok : applyOp op s = .ok s1)
    (hman : op.isManualUpdate = false)
    (hcl : ∀ i, op.completeTarget = some i →
      ∀ ri, findReport s i = some ri → ri.status ≠ .Closed)
    (id : Nat) (r : Report) (hr : findReport s id = some r) :
    Status.rank r.status ≤ Status.rank (getReportInfo s1 id).status := by
  cases op with
  | update caller now j st => simp [Op.isManualUpdate] at hman
  | batch caller now ids st => simp [Op.isManualUpdate] at hman
  | submit caller now lvl loc food desc =>
    simp only [applyOp] at hok
    unfold submitAnonymousReport at hok
    split at hok
    · simp [Except.map] at hok
    · simp only [Except.map] at hok
      injection hok with hok
      have hfind : findReport s1 id = some r :=
        findReport_append (by rw [← hok]) hr
      rw [getReportInfo_of_some hfind]
  | setReg caller newReg =>
    simp only [applyOp] at hok
    unfold setRegulator at hok
    split at hok
    · simp at hok
    · injection hok with hok
      have hfind : findReport s1 id = some r := by
        unfold findReport at hr ⊢
        rw [← hok]
        exact hr
      rw [getReportInfo_of_some hfind]
  | authorize caller who =>
    simp only [applyOp] at hok
    unfold authorizeInvestigator at hok
    split at hok
    · simp at hok
    · injection hok with hok
      have hfind : findReport s1 id = some r := by
        unfold findReport at hr ⊢
        rw [← hok]
        exact hr
      rw [getReportInfo_of_some hfind]
  | revoke caller who =>
    simp only [applyOp] at hok
    unfold revokeInvestigator at hok
    split at hok
    · simp at hok
    · injection hok with hok
      have hfind : findReport s1 id = some r := by
        unfold findReport at hr ⊢
        rw [← hok]
        exact hr
      rw [getReportInfo_of_some hfind]
  | emergency caller now j reason =>
    simp only [applyOp] at hok
    unfold emergencyCloseReport at hok
    split at hok
    · simp at hok
    · split at hok
      · simp at hok
      · rename_i rj hj
        injection hok with hok
        have hrep : s1.reports = s.reports.set (j - 1)
            { rj with status := .Closed, isValid := false, lastUpdated := now } := by
          rw [← hok]
        rcases findReport_set hj hrep id hr with
          ⟨hij, hrr, hfind⟩ | ⟨hij, hfind⟩
        · rw [getReportInfo_of_some hfind]
          exact rank_le_four r.status
        · rw [getReportInfo_of_some hfind]
  | start caller now j =>
    simp only [applyOp] at hok
    unfold startInvestigation at hok
    split at hok
    · simp at hok
    · rename_i rj hj
      split at hok
      · simp at hok
      · split at hok
        · rename_i hnot _
          injection hok with hok
          have hrep : s1.reports = s.reports.set (j - 1)
              { rj with status := .Investigating, lastUpdated := now } := by
            rw [← hok]
          rcases findReport_set hj hrep id hr with
            ⟨hij, hrr, hfind⟩ | ⟨hij, hfind⟩
          · rw [getReportInfo_of_some hfind]
            subst hrr
            cases hst : r.status <;> rw [hst] at hnot <;>
              simp [Status.rank] at hnot ⊢
          · rw [getReportInfo_of_some hfind]
        · simp at hok
  | complete caller now j lvl f =>
    simp only [applyOp] at hok
    unfold completeInvestigation at hok
    split at hok
    · simp at hok
    · split at hok
      · simp at hok
      · split at hok
        · split at hok
          · simp at hok
          · rename_i rj hj
            injection hok with hok
            have hrep : s1.reports = s.reports.set (j - 1)
                { rj with status := .Resolved, isProcessed := true,
                          lastUpdated := now } := by
              rw [← hok]
            rcases findReport_set hj hrep id hr with
              ⟨hij, hrr, hfind⟩ | ⟨hij, hfind⟩
            · rw [getReportInfo_of_some hfind]
              subst hrr
              have hne := hcl j rfl r (hij ▸ hr)
              exact (rank_le_three_of_ne_closed hne).trans (by simp [Status.rank])
            · rw [getReportInfo_of_some hfind]
        · simp at hok

/-- Witness for the amended C2 at a concrete input: the owner
emergency-closing the Submitted report of `sampleState` is a forward move
(rank 0 to rank 4). -/
theorem status_moves_forward_witness :
    Status.rank (getReportInfo sampleState 1).status
      ≤ Status.rank (getReportInfo
          (okOr (runOps [Op.emergency 0 9 1 "spam"] sampleState) sampleState)
          1).status := by
  have h := status_moves_forward (.emergency 0 9 1 "spam") sampleState
    (okOr (runOps [Op.emergency 0 9 1 "spam"] sampleState) sampleState)
    rfl rfl
    (by intro i hi ri hri; simp [Op.completeTarget] at hi)
    1 (getReportInfo sampleState 1) (by decide)
  exact h


/-! ### Counting lemmas for the statistics invariant -/

theorem countP_set_of_getElem? {α : Type} (p : α → Bool) :
    ∀ (l : List α) (i : Nat) (a b : α), l[i]? = some a →
    (l.set i b).countP p + (if p a then 1 else 0)
      = l.countP p + (if p b then 1 else 0)
  | [], i, a, b, h => by simp at h
  | x :: xs, 0, a, b, h => by
    simp only [List.getElem?_cons_zero, Option.some.injEq] at h
    subst h
    simp only [List.set_cons_zero, List.countP_cons]
    cases hpa : p x <;> cases hpb : p b <;> simp [hpa, hpb] <;> omega
  | x :: xs, i + 1, a, b, h => by
    simp only [List.getElem?_cons_succ] at h
    have ih := countP_set_of_getElem? p xs i a b h
    simp only [List.set_cons_succ, List.countP_cons]
    cases hpx : p x <;> simp [hpx] <;> omega

theorem countP_set_eq_of_agree {α : Type} (p : α → Bool) {l : List α} {i : Nat}
    {a : α} (b : α) (h : l[i]? = some a) (hab : p a = p b) :
    (l.set i b).countP p = l.countP p := by
  have hc := countP_set_of_getElem? p l i a b h
  rw [hab] at hc
  omega

theorem countP_status_sum : ∀ l : List Report,
    l.countP (fun x => x.status = Status.Submitted) +
    l.countP (fun x => x.status = Status.UnderReview) +
    l.countP (fun x => x.status = Status.Investigating) +
    l.countP (fun x => x.status = Status.Resolved) +
    l.countP (fun x => x.status = Status.Closed) = l.length
  | [] => rfl
  | x :: xs => by
    have ih := countP_status_sum xs
    cases h : x.status <;> simp [List.countP_cons, h] <;> omega

theorem findReport_getElem? {s : FSState} {j : Nat} {r : Report}
    (h : findReport s j = some r) : s.reports[j - 1]? = some r := by
  unfold findReport at h
  by_cases h0 : j = 0
  · simp [h0] at h
  · simpa [h0] using h

theorem bucket_incBucket (t : TotalStats) (a st : Status) :
    bucket (incBucket t a) st = bucket t st + (if a = st then 1 else 0) := by
  cases a <;> cases st <;> simp [incBucket, bucket]

theorem bucket_decBucket (t : TotalStats) (a st : Status) :
    bucket (decBucket t a) st = bucket t st - (if a = st then 1 else 0) := by
  cases a <;> cases st <;> simp [decBucket, bucket]

theorem incBucket_total (t : TotalStats) (a : Status) :
    (incBucket t a).total = t.total := by
  cases a <;> simp [incBucket]

theorem decBucket_total (t : TotalStats) (a : Status) :
    (decBucket t a).total = t.total := by
  cases a <;> simp [decBucket]

/-- The stored aggregate counters agree with the report table: the total is
the number of reports ever created, each status bucket counts the reports
currently in that status, and each location's totalReports counts the
reports submitted for that location. -/
def GoodStats (s : FSState) : Prop :=
  s.totalStats.total = s.reports.length ∧
  (∀ st : Status, bucket s.totalStats st = countStatus s st) ∧
  (∀ L : Nat, (s.locationStats L).totalReports = countLoc s L)

theorem goodBuckets_set {s : FSState} {t : TotalStats} {j : Nat} {rj b : Report}
    (hj : findReport s j = some rj)
    (hbk : ∀ st : Status, bucket t st = countStatus s st) (st : Status) :
    bucket (moveBucket t rj.status b.status) st
      = (s.reports.set (j - 1) b).countP (fun x => x.status = st) := by
  have hget := findReport_getElem? hj
  have hcnt := countP_set_of_getElem? (fun x => x.status = st)
    s.reports (j - 1) rj b hget
  have hge : rj.status = st → 1 ≤ s.reports.countP (fun x => x.status = st) :=
    fun hst => List.countP_pos_iff.mpr ⟨rj, List.getElem?_mem hget, by simp [hst]⟩
  rw [moveBucket, bucket_incBucket, bucket_decBucket, hbk st]
  unfold countStatus at *
  by_cases ha : rj.status = st <;> by_cases hb : b.status = st
  · have h1 := hge ha
    simp [ha, hb] at hcnt ⊢
    omega
  · have h1 := hge ha
    simp [ha, hb] at hcnt ⊢
    omega
  · simp [ha, hb] at hcnt ⊢
    omega
  · simp [ha, hb] at hcnt ⊢
    omega


theorem bucket_total_set (t : TotalStats) (x : Nat) (st : Status) :
    bucket { t with total := x } st = bucket t st := by
  cases st <;> simp [bucket]

/-- Preservation of `GoodStats` by any state whose report table is the old
one with a single record replaced in place (status possibly changed,
location unchanged) and whose buckets were moved accordingly. -/
theorem goodStats_set {s S : FSState} {j : Nat} {rj b : Report}
    (hj : findReport s j = some rj)
    (hrep : S.reports = s.reports.set (j - 1) b)
    (hts : S.totalStats = moveBucket s.totalStats rj.status b.status)
    (hls : ∀ L, (S.locationStats L).totalReports
      = (s.locationStats L).totalReports)
    (hlc : b.locationCode = rj.locationCode)
    (hg : GoodStats s) : GoodStats S := by
  obtain ⟨htot, hbk, hloc⟩ := hg
  refine ⟨?_, ?_, ?_⟩
  · rw [hts, moveBucket_total, hrep, List.length_set]
    exact htot
  · intro st1
    unfold countStatus
    rw [hts, hrep]
    exact goodBuckets_set hj hbk st1
  · intro L
    unfold countLoc
    rw [hrep, hls L]
    exact (hloc L).trans
      (countP_set_eq_of_agree _ b (findReport_getElem? hj) (by rw [hlc])).symm

theorem updateReportStatus_preserves {caller : Addr} {now id : Nat}
    {st : Status} {s s1 : FSState}
    (h : updateReportStatus caller now id st s = .ok s1) :
    GoodStats s → GoodStats s1 := by
  intro hg
  unfold updateReportStatus at h
  split at h
  · simp at h
  · split at h
    · simp at h
    · rename_i r hr
      injection h with h
      subst h
      exact goodStats_set hr rfl rfl (fun L => rfl) rfl hg

theorem batchGo_preserves {caller : Addr} {now : Nat} {st : Status} :
    ∀ (ids : List Nat) {s s1 : FSState},
    batchGo caller now st ids s = .ok s1 → GoodStats s → GoodStats s1
  | [], s, s1, h, hg => by
    injection h with h
    exact h ▸ hg
  | id :: rest, s, s1, h, hg => by
    unfold batchGo at h
    split at h
    · simp at h
    · rename_i s2 h2
      exact batchGo_preserves rest h (updateReportStatus_preserves h2 hg)

/-- Every successful public operation preserves the statistics invariant. -/
theorem applyOp_preserves_goodStats (op : Op) {s s1 : FSState}
    (hok : applyOp op s = .ok s1) (hg : GoodStats s) : GoodStats s1 := by
  obtain ⟨htot, hbk, hloc⟩ := hg
  cases op with
  | submit caller now lvl loc food desc =>
    simp only [applyOp] at hok
    unfold submitAnonymousReport at hok
    split at hok
    · simp [Except.map] at hok
    · simp only [Except.map] at hok
      injection hok with hok
      subst hok
      refine ⟨?_, ?_, ?_⟩
      · simpa [incBucket_total] using htot
      · intro st1
        rw [bucket_incBucket, bucket_total_set, hbk st1]
        unfold countStatus
        rw [List.countP_append]
        by_cases hst : Status.Submitted = st1 <;> simp [hst]
      · intro L
        unfold countLoc
        rw [List.countP_append]
        by_cases hL : L = loc
        · subst hL
          simpa [countLoc] using hloc L
        · have hL2 : ¬ loc = L := fun hc => hL hc.symm
          simpa [hL, hL2, countLoc] using hloc L
  | setReg caller newReg =>
    simp only [applyOp] at hok
    unfold setRegulator at hok
    split at hok
    · simp at hok
    · injection hok with hok
      subst hok
      exact ⟨htot, hbk, hloc⟩
  | authorize caller who =>
    simp only [applyOp] at hok
    unfold authorizeInvestigator at hok
    split at hok
    · simp at hok
    · injection hok with hok
      subst hok
      exact ⟨htot, hbk, hloc⟩
  | revoke caller who =>
    simp only [applyOp] at hok
    unfold revokeInvestigator at hok
    split at hok
    · simp at hok
    · injection hok with hok
      subst hok
      exact ⟨htot, hbk, hloc⟩
  | update caller now id st =>
    exact updateReportStatus_preserves hok ⟨htot, hbk, hloc⟩
  | batch caller now ids st =>
    simp only [applyOp] at hok
    unfold batchUpdateStatus at hok
    split at hok
    · simp at hok
    · exact batchGo_preserves ids hok ⟨htot, hbk, hloc⟩
  | emergency caller now j reason =>
    simp only [applyOp] at hok
    unfold emergencyCloseReport at hok
    split at hok
    · simp at hok
    · split at hok
      · simp at hok
      · rename_i rj hj
        injection hok with hok
        subst hok
        exact goodStats_set hj rfl rfl (fun L => rfl) rfl ⟨htot, hbk, hloc⟩
  | start caller now j =>
    simp only [applyOp] at hok
    unfold startInvestigation at hok
    split at hok
    · simp at hok
    · rename_i rj hj
      split at hok
      · simp at hok
      · split at hok
        · injection hok with hok
          subst hok
          exact goodStats_set hj rfl rfl (fun L => rfl) rfl ⟨htot, hbk, hloc⟩
        · simp at hok
  | complete caller now j lvl f =>
    simp only [applyOp] at hok
    unfold completeInvestigation at hok
    split at hok
    · simp at hok
    · split at hok
      · simp at hok
      · split at hok
        · split at hok
          · simp at hok
          · rename_i rj hj
            injection hok with hok
            subst hok
            refine goodStats_set hj rfl rfl (fun L => ?_) rfl ⟨htot, hbk, hloc⟩
            by_cases hL : L = rj.locationCode <;> simp [hL]
        · simp at hok

/-- Every reachable state satisfies the statistics invariant. -/
theorem reachable_goodStats {d : Addr} {s : FSState} (h : Reachable d s) :
    GoodStats s := by
  induction h with
  | init => exact ⟨rfl, fun st => by cases st <;> rfl, fun L => rfl⟩
  | step op hprev hok ih => exact applyOp_preserves_goodStats op hok ih


theorem sampleState_reachable : Reachable 0 sampleState :=
  Reachable.step (Op.submit 5 1 2 1001 5001 "issue")
    (Reachable.step (Op.authorize 0 6) Reachable.init rfl) rfl

/-- Claim C4: in every reachable state — after any sequence of successful
public operations (submit, updateStatus, batchUpdateStatus,
startInvestigation, completeInvestigation, emergencyClose, and the
role-management calls) — the five status buckets returned by getTotalStats
sum to its total field. -/
theorem totalStats_buckets_sum (d : Addr) (s : FSState)
    (h : Reachable d s) :
    (getTotalStats s).submitted + (getTotalStats s).underReview +
      (getTotalStats s).investigating + (getTotalStats s).resolved +
      (getTotalStats s).closed = (getTotalStats s).total := by
  obtain ⟨htot, hbk, _⟩ := reachable_goodStats h
  have h1 : s.totalStats.submitted = countStatus s .Submitted := hbk .Submitted
  have h2 : s.totalStats.underReview = countStatus s .UnderReview :=
    hbk .UnderReview
  have h3 : s.totalStats.investigating = countStatus s .Investigating :=
    hbk .Investigating
  have h4 : s.totalStats.resolved = countStatus s .Resolved := hbk .Resolved
  have h5 : s.totalStats.closed = countStatus s .Closed := hbk .Closed
  show s.totalStats.submitted + s.totalStats.underReview +
    s.totalStats.investigating + s.totalStats.resolved + s.totalStats.closed
    = s.totalStats.total
  rw [h1, h2, h3, h4, h5, htot]
  exact countP_status_sum s.reports

/-- Witness for C4 on a concrete reachable state with one Submitted
report: 1 + 0 + 0 + 0 + 0 = 1. -/
theorem totalStats_buckets_sum_witness :
    (getTotalStats sampleState).submitted +
      (getTotalStats sampleState).underReview +
      (getTotalStats sampleState).investigating +
      (getTotalStats sampleState).resolved +
      (getTotalStats sampleState).closed = (getTotalStats sampleState).total :=
  totalStats_buckets_sum 0 sampleState sampleState_reachable

/-- Claim C9: in every reachable state and for every location code L,
getLocationStats(L).totalReports equals the number of successfully
submitted reports whose locationCode is L (the report table holds exactly
the successfully submitted reports: every successful submission appends one
record and reports are never deleted); unseen codes therefore report 0 and
distinct codes are counted independently. -/
theorem locationStats_counts (d : Addr) (s : FSState) (h : Reachable d s)
    (L : Nat) :
    (getLocationStats s L).totalReports = countLoc s L :=
  (reachable_goodStats h).2.2 L

/-- Witness for C9 on a concrete reachable state: location 1001 has exactly
its one submitted report, an unseen code has zero. -/
theorem locationStats_counts_witness :
    ((getLocationStats sampleState 1001).totalReports = 1 ∧
      countLoc sampleState 1001 = 1) ∧
    ((getLocationStats sampleState 9999).totalReports = 0 ∧
      countLoc sampleState 9999 = 0) :=
  ⟨⟨(locationStats_counts 0 sampleState sampleState_reachable 1001).trans
      (by decide), by decide⟩,
   ⟨(locationStats_counts 0 sampleState sampleState_reachable 9999).trans
      (by decide), by decide⟩⟩

